import Mathlib

set_option maxRecDepth 20000

/-!
Verification of the commitment-and-proof engine of libp2p-privacy-poc.

The repository ships the test suites and abstract interfaces of its Pedersen
commitment-opening proof backend, while the backend implementation modules
themselves (backend, commitments, schnorr, types, config, factory,
adapters/mock_adapter) are not among the sources.  Those operations are
therefore modelled from the specification (spec.md sections 3 to 7), each
such definition carrying a doc comment that starts with
"Modelled from the spec:".  The mock zero-knowledge proof system
(mock_zk_proofs.py) is present in the sources and is embedded from the code.

Idealizations used by the spec-modelled part, stated once here:
the spec requires sha-256 digests and a Fiat-Shamir hash with
cryptographic-hash-level collision resistance ("effectively injective").
The model realizes that contract exactly by using injective encodings as the
hash functions and by omitting the reduction of the challenge modulo the
group order (which would reintroduce collisions the spec assumes away).
The group is a fixed prime-order cyclic group, modelled as the additive
group of ZMod 251 with two unit generators.
-/

/-- A byte: a natural number below 256. -/
abbrev Byte : Type := Fin 256

/-- A byte string, the carrier of every opaque identifier, digest and
encoded field in the model. -/
abbrev ByteStr : Type := List Byte

/-- Convenience conversion from a Lean string literal to the byte string of
its character codes (codes are taken modulo 256; every literal used in this
development is plain ASCII, so no information is lost). -/
def asciiBytes (s : String) : ByteStr :=
  s.data.map (fun c => (⟨c.toNat % 256, Nat.mod_lt _ (by norm_num)⟩ : Fin 256))

/-- Injective numeric code of a byte string: base-257 with digits 1..256.
Used as the ideal hash underlying value derivation and the Fiat-Shamir
challenge (see the file header). -/
def bytesCode : ByteStr → Nat
  | [] => 0
  | b :: t => (b : Fin 256).val + 1 + 257 * bytesCode t

/-- Minimal little-endian base-256 byte encoding of a natural number. -/
def natToBytes (n : Nat) : ByteStr :=
  if h : n = 0 then []
  else (⟨n % 256, by omega⟩ : Fin 256) :: natToBytes (n / 256)
termination_by n
decreasing_by exact Nat.div_lt_self (Nat.pos_of_ne_zero h) (by norm_num)

/-- Value of a little-endian base-256 byte string; left inverse of
natToBytes. -/
def bytesToNat : ByteStr → Nat
  | [] => 0
  | b :: t => (b : Fin 256).val + 256 * bytesToNat t

/-- Partial inverse of bytesCode, used by proof deserialization. -/
def decodeBytesN (m : Nat) : Option ByteStr :=
  if hm : m = 0 then some []
  else
    if hr : 1 ≤ m % 257 then
      match decodeBytesN (m / 257) with
      | some t => some ((⟨m % 257 - 1, by omega⟩ : Fin 256) :: t)
      | none => none
    else none
termination_by m
decreasing_by exact Nat.div_lt_self (Nat.pos_of_ne_zero hm) (by norm_num)

/-- Modelled from the spec: the sha-256 digest (the hashing module is not in
the sources).  Collision resistance is idealized as injectivity, so the
digest function is modelled as the injective identity on byte strings; its
fixed output length is abstracted away (no claim under verification depends
on the digest length). -/
def sha256B (bs : ByteStr) : ByteStr := bs

/-- The group order of the modelled curve group. -/
abbrev grpOrder : Nat := 251

/-- Modelled from the spec: the first Pedersen generator G of the shared
curve parameters (the parameter-provider module is not in the sources).
The group is the additive group of ZMod 251 and G is the unit 2. -/
def Gp : ZMod grpOrder := 2

/-- Modelled from the spec: the second, independent Pedersen generator H;
the unit 3 of ZMod 251. -/
def Hp : ZMod grpOrder := 3

/-- Modelled from the spec: the fixed-length encoding of a group element
(point-encoding length 1 byte for the modelled group). -/
def pointBytes (x : ZMod grpOrder) : ByteStr :=
  [(⟨x.val, Nat.lt_trans (ZMod.val_lt x) (by norm_num)⟩ : Fin 256)]

/-- A response scalar reduced modulo the group order, stored as one byte. -/
def scalarByte (n : Nat) : Byte := (⟨n % grpOrder, by unfold grpOrder; omega⟩ : Fin 256)

/-- Byte value at an index of a byte string (0 when out of range). -/
def bVal (bs : ByteStr) (i : Nat) : Nat := ((bs.getD i (0 : Fin 256)) : Fin 256).val

/-- Modelled from the spec: the ProofContext record crossing the boundary
(the types module is not in the sources).  The session identifier is an
Option so that the "session_id is None" caller error of the tests is
representable; metadata is a string-keyed map of numeric auxiliary values. -/
structure ProofContext where
  peer_id : ByteStr
  session_id : Option ByteStr
  metadata : List (ByteStr × Nat)
  timestamp : Nat

/-- Code of an optional byte string, 0 for none. -/
def encodeOptB : Option ByteStr → Nat
  | none => 0
  | some bs => bytesCode bs + 1

/-- Code of the metadata map, one Nat.pair per entry. -/
def encodeMeta : List (ByteStr × Nat) → Nat
  | [] => 0
  | kv :: t => Nat.pair (Nat.pair (bytesCode kv.1) kv.2) (encodeMeta t) + 1

/-- Modelled from the spec: the canonical, order-stable byte encoding of a
ProofContext used as the domain-separation input of the proof.  All four
fields (peer identifier, session identifier, metadata, timestamp) enter the
encoding injectively through Nat.pair. -/
def ProofContext.to_bytes (c : ProofContext) : ByteStr :=
  natToBytes (Nat.pair (bytesCode c.peer_id)
    (Nat.pair (encodeOptB c.session_id)
      (Nat.pair (encodeMeta c.metadata) c.timestamp)))

/-- The anonymity-set-size hint carried in the context metadata (0 when the
key is absent). -/
def anonHint (c : ProofContext) : Nat :=
  match c.metadata.find? (fun kv => kv.1 = asciiBytes "anonymity_set_size") with
  | some kv => kv.2
  | none => 0

/-- Modelled from the spec: the public-inputs map of a ZKProof.  The map is
string-keyed with optional entries; it is modelled as a record of Option
fields, one per key that any backend writes or reads (statement-version
marker v, curve name, anonymity-set-size hint, context hash, ephemeral
first-message point A, claim_only flag, and the mock verification key
written only by the mock adapter). -/
structure PublicInputs where
  v : Option Nat
  curve : Option ByteStr
  anonymity_set_size : Option Nat
  ctx_hash : Option ByteStr
  A : Option ByteStr
  claim_only : Option Bool
  mock_vk : Option ByteStr
deriving DecidableEq

/-- Modelled from the spec: the ZKProof record (the types module is not in
the sources): tagged proof-family identifier, commitment, challenge and
response byte fields, public-inputs map, creation timestamp. -/
structure ZKProof where
  proof_type : ByteStr
  commitment : ByteStr
  challenge : ByteStr
  response : ByteStr
  public_inputs : PublicInputs
  timestamp : Nat
deriving DecidableEq

/-- Modelled from the spec: the randomness consumed by one proof
generation - a blinding factor for the commitment and the two ephemeral
sigma-protocol nonces - passed explicitly since the model is pure. -/
structure RandTape where
  blinding : Nat
  kv : Nat
  kb : Nat

/-- Modelled from the spec: the caller errors of construction-time input
validation - a type violation or a value violation, each carrying its
message. -/
inductive PyError where
  | typeError (msg : ByteStr)
  | valueError (msg : ByteStr)
deriving DecidableEq

/-- Modelled from the spec: the dynamically-typed argument of
generate_commitment_opening_proof - either an actual ProofContext or a value
of some other runtime type. -/
inductive CtxArg where
  | ctx (c : ProofContext)
  | notCtx

/-- The proof-family tag shared by both backends
(ZKProofType.ANONYMITY_SET_MEMBERSHIP.value). -/
def anonTag : ByteStr := asciiBytes "anonymity_set_membership"

/-- Modelled from the spec: the curve name reported in public inputs. -/
def curveName : ByteStr := asciiBytes "zmod251"

/-- Modelled from the spec: the domain-separation tag of the Fiat-Shamir
transform (its concrete value is not in the sources; any fixed non-empty
tag is faithful). -/
def domainTag : ByteStr := [80, 111, 75]

/-- The Fiat-Shamir transcript: domain tag, then context hash, then
commitment bytes, then ephemeral point bytes. -/
def transcript (h C A : ByteStr) : ByteStr := domainTag ++ h ++ C ++ A

/-- Modelled from the spec: the Fiat-Shamir challenge
c = Hash(domain-tag, context_hash, commitment, A).  The hash is idealized
as the injective byte-string code and the reduction modulo the group order
is omitted (see the file header). -/
def challengeNat (h C A : ByteStr) : Nat := bytesCode (transcript h C A)

/-- Modelled from the spec: derive_value - the deterministic one-way map
from an opaque identifier to a scalar, a cryptographic hash of the
identifier; the hash is idealized as injective and the reduction modulo the
group order is omitted so that the effectively-injective contract of the
spec is exact in the model. -/
def deriveValue (id : ByteStr) : Nat := bytesCode (sha256B id)

/-- Modelled from the spec: the Pedersen commitment point
value * G + blinding * H. -/
def pedCommitPt (v b : Nat) : ZMod grpOrder := (v : ZMod grpOrder) * Gp + (b : ZMod grpOrder) * Hp

/-- The commitment point of the proof built for context c with randomness r. -/
def proofCommitPt (c : ProofContext) (r : RandTape) : ZMod grpOrder :=
  pedCommitPt (deriveValue c.peer_id) r.blinding

/-- The ephemeral sigma-protocol first message A = kv * G + kb * H. -/
def proofAPt (r : RandTape) : ZMod grpOrder := pedCommitPt r.kv r.kb

/-- The Fiat-Shamir challenge of the proof built for context c with
randomness r. -/
def proofChallenge (c : ProofContext) (r : RandTape) : Nat :=
  challengeNat (sha256B c.to_bytes) (pointBytes (proofCommitPt c r)) (pointBytes (proofAPt r))

/-- Modelled from the spec: assembly of the ZKProof record from a validated
context and the sampled randomness - commit, hash the context, run the
sigma engine, emit (A, c, z_v and z_b) with the public inputs of spec
section 3. -/
def buildProof (c : ProofContext) (r : RandTape) : ZKProof :=
  { proof_type := anonTag
  , commitment := pointBytes (proofCommitPt c r)
  , challenge := natToBytes (proofChallenge c r)
  , response := [scalarByte (r.kv + proofChallenge c r * deriveValue c.peer_id),
                 scalarByte (r.kb + proofChallenge c r * r.blinding)]
  , public_inputs :=
      { v := some 1
      , curve := some curveName
      , anonymity_set_size := some (anonHint c)
      , ctx_hash := some (sha256B c.to_bytes)
      , A := some (pointBytes (proofAPt r))
      , claim_only := some true
      , mock_vk := none }
  , timestamp := c.timestamp }

/-- Modelled from the spec: construction-time input validation of
generate_commitment_opening_proof - a type violation when ctx is not a
ProofContext or its session identifier is not a string, a value violation
when the peer identifier or the session identifier is empty (messages as
asserted by the tests). -/
def validateCtx : CtxArg → Except PyError ProofContext
  | CtxArg.notCtx => Except.error (PyError.typeError (asciiBytes "ctx must be ProofContext"))
  | CtxArg.ctx c =>
    match c.session_id with
    | none => Except.error (PyError.typeError (asciiBytes "session_id must be str"))
    | some s =>
      if c.peer_id = [] then
        Except.error (PyError.valueError (asciiBytes "peer_id cannot be empty"))
      else if s = [] then
        Except.error (PyError.valueError (asciiBytes "session_id cannot be empty"))
      else Except.ok c

/-- Modelled from the spec: a Pedersen backend instance.  The backend holds
no per-instance state (spec section 4.5: every operation is a pure function
of its explicit inputs plus the shared immutable parameters), so the
structure has no fields; distinct instances are nevertheless quantifiable. -/
structure PedersenBackend

/-- Modelled from the spec: generate_commitment_opening_proof - validate the
context first (raising the caller errors of validateCtx before any
cryptographic work), then build the proof from the derived value, sampled
randomness and context hash. -/
def PedersenBackend.generate_commitment_opening_proof
    (_ : PedersenBackend) (a : CtxArg) (r : RandTape) : Except PyError ZKProof :=
  match validateCtx a with
  | Except.error e => Except.error e
  | Except.ok c => Except.ok (buildProof c r)

/-- Modelled from the spec: verify_proof - a total Boolean verifier.  It
checks the proof-family tag, the field lengths, the presence of the context
hash and of the ephemeral point A among the public inputs, recomputes the
Fiat-Shamir challenge from the carried context hash, the commitment and A,
compares it with the stored challenge, and checks the sigma equation
z_v * G + z_b * H = A + c * commitment.  Malformed input of every kind is
folded into the value false; no exception path exists. -/
def PedersenBackend.verify_proof (_ : PedersenBackend) (p : ZKProof) : Bool :=
  match p.public_inputs.ctx_hash, p.public_inputs.A with
  | some h, some aB =>
      decide (p.proof_type = anonTag) &&
      decide (p.commitment.length = 1) &&
      decide (aB.length = 1) &&
      decide (p.response.length = 2) &&
      decide (p.challenge = natToBytes (challengeNat h p.commitment aB)) &&
      decide (((bVal p.response 0 : Nat) : ZMod grpOrder) * Gp
                + ((bVal p.response 1 : Nat) : ZMod grpOrder) * Hp
              = ((bVal aB 0 : Nat) : ZMod grpOrder)
                + ((challengeNat h p.commitment aB : Nat) : ZMod grpOrder)
                  * ((bVal p.commitment 0 : Nat) : ZMod grpOrder))
  | _, _ => false

/-- Modelled from the spec: batch_verify - true iff every element verifies
individually, exposing only the aggregate Boolean. -/
def PedersenBackend.batch_verify (b : PedersenBackend) (ps : List ZKProof) : Bool :=
  ps.all b.verify_proof

/-- The acceptance predicate of the Pedersen verifier, written at the
Prop level following the words of spec sections 4.4 and 7: acceptance holds
exactly when every structural check (proof-family tag, field lengths,
presence of the context hash and of A) and the two algebraic checks
(challenge recomputation, sigma equation) hold.  This is the specification
side of the refinement stated for claim C4. -/
def PedAccepts (p : ZKProof) : Prop :=
  match p.public_inputs.ctx_hash, p.public_inputs.A with
  | some h, some aB =>
      p.proof_type = anonTag ∧
      p.commitment.length = 1 ∧
      aB.length = 1 ∧
      p.response.length = 2 ∧
      p.challenge = natToBytes (challengeNat h p.commitment aB) ∧
      ((bVal p.response 0 : Nat) : ZMod grpOrder) * Gp
          + ((bVal p.response 1 : Nat) : ZMod grpOrder) * Hp
        = ((bVal aB 0 : Nat) : ZMod grpOrder)
          + ((challengeNat h p.commitment aB : Nat) : ZMod grpOrder)
            * ((bVal p.commitment 0 : Nat) : ZMod grpOrder)
  | _, _ => False

/-- Flip bit j of a byte (identity for j outside 0..7). -/
def flipByte (b : Byte) (j : Nat) : Byte :=
  if h : j < 8 then
    (⟨(b : Fin 256).val ^^^ (1 <<< j),
      Nat.xor_lt_two_pow (n := 8) (b : Fin 256).isLt
        (by
          rw [Nat.one_shiftLeft]
          exact Nat.pow_lt_pow_right (by norm_num) h)⟩ : Fin 256)
  else b

/-- Flip bit j of byte i of a byte string (identity outside the string). -/
def flipBit : ByteStr → Nat → Nat → ByteStr
  | [], _, _ => []
  | b :: t, 0, j => flipByte b j :: t
  | b :: t, i + 1, j => b :: flipBit t i j

/-- Code of an optional natural number, 0 for none. -/
def encodeOptN : Option Nat → Nat
  | none => 0
  | some n => n + 1

/-- Inverse of encodeOptN (total). -/
def decodeOptN : Nat → Option Nat
  | 0 => none
  | n + 1 => some n

/-- Code of an optional Boolean, 0 for none. -/
def encodeOptBool : Option Bool → Nat
  | none => 0
  | some false => 1
  | some true => 2

/-- Partial inverse of encodeOptBool. -/
def decodeOptBool : Nat → Option (Option Bool)
  | 0 => some none
  | 1 => some (some false)
  | 2 => some (some true)
  | _ => none

/-- Partial inverse of encodeOptB. -/
def decodeOptB : Nat → Option (Option ByteStr)
  | 0 => some none
  | m + 1 => (decodeBytesN m).map some

/-- Numeric code of a public-inputs map, nested through Nat.pair. -/
def encPub (pi : PublicInputs) : Nat :=
  Nat.pair (encodeOptN pi.v)
    (Nat.pair (encodeOptB pi.curve)
      (Nat.pair (encodeOptN pi.anonymity_set_size)
        (Nat.pair (encodeOptB pi.ctx_hash)
          (Nat.pair (encodeOptB pi.A)
            (Nat.pair (encodeOptBool pi.claim_only) (encodeOptB pi.mock_vk))))))

/-- Partial inverse of encPub. -/
def decPub (m : Nat) : Option PublicInputs :=
  let p1 := Nat.unpair m
  let p2 := Nat.unpair p1.2
  let p3 := Nat.unpair p2.2
  let p4 := Nat.unpair p3.2
  let p5 := Nat.unpair p4.2
  let p6 := Nat.unpair p5.2
  match decodeOptB p2.1, decodeOptB p4.1, decodeOptB p5.1,
        decodeOptBool p6.1, decodeOptB p6.2 with
  | some cu, some ch, some aB, some co, some mv =>
      some { v := decodeOptN p1.1
           , curve := cu
           , anonymity_set_size := decodeOptN p3.1
           , ctx_hash := ch
           , A := aB
           , claim_only := co
           , mock_vk := mv }
  | _, _, _, _, _ => none

/-- Numeric code of a full proof record, nested through Nat.pair. -/
def encProof (p : ZKProof) : Nat :=
  Nat.pair (bytesCode p.proof_type)
    (Nat.pair (bytesCode p.commitment)
      (Nat.pair (bytesCode p.challenge)
        (Nat.pair (bytesCode p.response)
          (Nat.pair (encPub p.public_inputs) p.timestamp))))

/-- Partial inverse of encProof. -/
def decProof (m : Nat) : Option ZKProof :=
  let p1 := Nat.unpair m
  let p2 := Nat.unpair p1.2
  let p3 := Nat.unpair p2.2
  let p4 := Nat.unpair p3.2
  let p5 := Nat.unpair p4.2
  match decodeBytesN p1.1, decodeBytesN p2.1, decodeBytesN p3.1,
        decodeBytesN p4.1, decPub p5.1 with
  | some pt, some cm, some ch, some rs, some pis =>
      some { proof_type := pt
           , commitment := cm
           , challenge := ch
           , response := rs
           , public_inputs := pis
           , timestamp := p5.2 }
  | _, _, _, _, _ => none

/-- Modelled from the spec: the lossless byte serialization of a ZKProof
(types module not in the sources); every field enters the encoding
injectively. -/
def ZKProof.serialize (p : ZKProof) : ByteStr := natToBytes (encProof p)

/-- Modelled from the spec: deserialization of a ZKProof, the partial
inverse of serialize. -/
def ZKProof.deserialize (bs : ByteStr) : Option ZKProof := decProof (bytesToNat bs)

/-- The mock verification key for a proof-family tag carried as raw bytes:
the digest of the bytes "vk_" followed by the tag, mirroring
MockZKProofSystem._generate_mock_vk of mock_zk_proofs.py. -/
def mockVKBytes (t : ByteStr) : ByteStr := sha256B (asciiBytes "vk_" ++ t)

/-- Modelled from the spec: a mock-adapter backend instance (the
adapters/mock_adapter module is not in the sources); like the Pedersen
backend it is stateless, so the structure has no fields. -/
structure MockZKProofSystemAdapter

/-- Modelled from the spec: the mock adapter generate_anonymity_set_proof -
wraps the illustrative placeholder proof system behind the common ZKProof
shape: same proof-family tag as the Pedersen backend, placeholder
commitment, challenge and response bytes, and public inputs holding the
anonymity-set size and the mock verification key of the placeholder system;
no context hash is produced. -/
def MockZKProofSystemAdapter.generate_anonymity_set_proof
    (_ : MockZKProofSystemAdapter) (c : ProofContext) (anonymity_set_size : Nat) : ZKProof :=
  { proof_type := anonTag
  , commitment := asciiBytes "mock_commitment"
  , challenge := asciiBytes "mock_challenge"
  , response := asciiBytes "mock_response"
  , public_inputs :=
      { v := none
      , curve := none
      , anonymity_set_size := some anonymity_set_size
      , ctx_hash := none
      , A := none
      , claim_only := none
      , mock_vk := some (mockVKBytes anonTag) }
  , timestamp := c.timestamp }

/-- Modelled from the spec: the mock adapter verify_proof - the
backend-specific check of the illustrative verifier, mirroring the key
comparison of MockZKProofSystem.verify_proof: the proof must carry the mock
verification key matching its proof-family tag (a key the Pedersen backend
never writes). -/
def MockZKProofSystemAdapter.verify_proof
    (_ : MockZKProofSystemAdapter) (p : ZKProof) : Bool :=
  decide (p.public_inputs.mock_vk = some (mockVKBytes p.proof_type))

/-- The proof-type enumeration of mock_zk_proofs.py (class ZKProofType). -/
inductive ZKProofType where
  | anonymity_set_membership
  | session_unlinkability
  | range_proof
  | equality_proof
  | timing_independence
deriving DecidableEq

/-- The value strings of the ZKProofType enumeration. -/
def ZKProofType.value : ZKProofType → ByteStr
  | ZKProofType.anonymity_set_membership => asciiBytes "anonymity_set_membership"
  | ZKProofType.session_unlinkability => asciiBytes "session_unlinkability"
  | ZKProofType.range_proof => asciiBytes "range_proof"
  | ZKProofType.equality_proof => asciiBytes "equality_proof"
  | ZKProofType.timing_independence => asciiBytes "timing_independence"

/-- The MockZKProof record of mock_zk_proofs.py.  The fields the verifier
reads (proof_type, is_valid, mock_verification_key) and those feeding the
mock hash (claim, timestamp) are embedded; proof_data and public_inputs are
omitted as no code path under verification reads them. -/
structure MockZKProof where
  proof_type : ZKProofType
  claim : ByteStr
  timestamp : Nat
  is_valid : Bool
  mock_proof_hash : ByteStr
  mock_verification_key : ByteStr

/-- MockZKProof._generate_mock_verification_key: the digest of
"vk_" followed by the proof-type value. -/
def mockVKOf (t : ZKProofType) : ByteStr := sha256B (asciiBytes "vk_" ++ t.value)

/-- MockZKProof._generate_mock_hash: the digest of the proof-type value,
the claim and the timestamp joined by underscores (decimal rendering of the
timestamp abstracted to its byte encoding). -/
def mockProofHashOf (t : ZKProofType) (claim : ByteStr) (ts : Nat) : ByteStr :=
  sha256B (t.value ++ [95] ++ claim ++ [95] ++ natToBytes ts)

/-- MockZKProof construction including the post-init defaulting: an empty
mock_proof_hash or mock_verification_key argument is replaced by the
generated one. -/
def mkMockZKProof (t : ZKProofType) (claim : ByteStr) (ts : Nat) (is_valid : Bool)
    (hash vk : ByteStr) : MockZKProof :=
  { proof_type := t
  , claim := claim
  , timestamp := ts
  , is_valid := is_valid
  , mock_proof_hash := if hash = [] then mockProofHashOf t claim ts else hash
  , mock_verification_key := if vk = [] then mockVKOf t else vk }

/-- MockZKProof.verify: returns the stored is_valid flag. -/
def MockZKProof.verify (p : MockZKProof) : Bool := p.is_valid

/-- The MockZKProofSystem of mock_zk_proofs.py.  Its verification_keys
dictionary is initialized over every enumeration member with
_generate_mock_vk, hence it is the total function mockVKOf; the
generated_proofs log is append-only and never read by verification, so the
system carries no modelled state. -/
structure MockZKProofSystem

/-- MockZKProofSystem.verification_keys lookup (total: the init loop covers
every proof type). -/
def MockZKProofSystem.verification_keys (_ : MockZKProofSystem) (t : ZKProofType) : ByteStr :=
  mockVKOf t

/-- MockZKProofSystem.verify_proof: false when the verification key of the
proof differs from the stored key for its proof type, otherwise the result
of MockZKProof.verify (the stored is_valid flag). -/
def MockZKProofSystem.verify_proof (s : MockZKProofSystem) (p : MockZKProof) : Bool :=
  if p.mock_verification_key ≠ s.verification_keys p.proof_type then false
  else p.verify

/-- MockZKProofSystem.generate_anonymity_set_proof (timestamp passed
explicitly in place of time.time(); the claim text follows the format
string with the decimal rendering of the size abstracted). -/
def MockZKProofSystem.generate_anonymity_set_proof (_ : MockZKProofSystem)
    (_peer_id : ByteStr) (anonymity_set_size : Nat) (ts : Nat) : MockZKProof :=
  mkMockZKProof ZKProofType.anonymity_set_membership
    (asciiBytes "Peer is one of " ++ natToBytes anonymity_set_size
      ++ asciiBytes " peers in anonymity set")
    ts true [] []

/-- MockZKProofSystem.generate_unlinkability_proof: the only generator whose
is_valid flag is caller-controlled (are_unlinkable). -/
def MockZKProofSystem.generate_unlinkability_proof (_ : MockZKProofSystem)
    (session_1_id session_2_id : ByteStr) (are_unlinkable : Bool) (ts : Nat) : MockZKProof :=
  mkMockZKProof ZKProofType.session_unlinkability
    (asciiBytes "Sessions " ++ session_1_id.take 8 ++ asciiBytes "... and "
      ++ session_2_id.take 8 ++ asciiBytes "... are cryptographically unlinkable")
    ts are_unlinkable [] []

/-- MockZKProofSystem.generate_range_proof (always valid). -/
def MockZKProofSystem.generate_range_proof (_ : MockZKProofSystem)
    (value_name : ByteStr) (min_value max_value : Nat) (ts : Nat) : MockZKProof :=
  mkMockZKProof ZKProofType.range_proof
    (value_name ++ asciiBytes " is within range [" ++ natToBytes min_value
      ++ asciiBytes ", " ++ natToBytes max_value ++ asciiBytes "]")
    ts true [] []

/-- MockZKProofSystem.generate_timing_independence_proof (always valid). -/
def MockZKProofSystem.generate_timing_independence_proof (_ : MockZKProofSystem)
    (event_1 event_2 : ByteStr) (ts : Nat) : MockZKProof :=
  mkMockZKProof ZKProofType.timing_independence
    (asciiBytes "Events " ++ event_1 ++ asciiBytes " and " ++ event_2
      ++ asciiBytes " are timing-independent")
    ts true [] []

/-- MockZKProofSystem.batch_verify: all proofs verify. -/
def MockZKProofSystem.batch_verify (s : MockZKProofSystem) (ps : List MockZKProof) : Bool :=
  ps.all s.verify_proof

/-- Modelled from the spec: the value-derivation method of the backend
(named _derive_commitment_value in the tests); it is a pure function of the
identifier alone - the backend instance carries no state - so determinism
across calls and across instances is structural. -/
def PedersenBackend.derive_commitment_value (_ : PedersenBackend) (id : ByteStr) : Nat :=
  deriveValue id

/-- A concrete witness peer identifier (the bytes of "QmTest"). -/
def wPeer : ByteStr := [81, 109, 84, 101, 115, 116]

/-- A concrete witness context with a non-empty session identifier and an
anonymity-set-size hint. -/
def wCtx : ProofContext := ⟨wPeer, some [115, 49], [([97], 4)], 7⟩

/-- A concrete witness randomness tape. -/
def wR : RandTape := ⟨5, 7, 11⟩

/-- A concrete backend instance for witnesses. -/
def wB : PedersenBackend := PedersenBackend.mk

/-- A second concrete backend instance (fresh verifier). -/
def wB2 : PedersenBackend := PedersenBackend.mk

theorem bytesToNat_natToBytes (n : Nat) : bytesToNat (natToBytes n) = n := by
  induction n using Nat.strong_induction_on with
  | _ n ih =>
    rw [natToBytes]
    split
    · rename_i h
      simp [h, bytesToNat]
    · rename_i h
      simp only [bytesToNat]
      rw [ih (n / 256) (Nat.div_lt_self (Nat.pos_of_ne_zero h) (by norm_num))]
      omega

theorem natToBytes_injective : Function.Injective natToBytes := by
  intro a b h
  have h2 := congrArg bytesToNat h
  rwa [bytesToNat_natToBytes, bytesToNat_natToBytes] at h2

theorem natToBytes_ne_nil {n : Nat} (h : n ≠ 0) : natToBytes n ≠ [] := by
  rw [natToBytes]
  simp [h]

theorem decodeBytesN_bytesCode (bs : ByteStr) : decodeBytesN (bytesCode bs) = some bs := by
  induction bs with
  | nil => simp [bytesCode, decodeBytesN]
  | cons b t ih =>
    have hb := b.isLt
    have hne : bytesCode (b :: t) ≠ 0 := by simp only [bytesCode]; omega
    have hmod : bytesCode (b :: t) % 257 = b.val + 1 := by
      simp only [bytesCode]
      have : b.val + 1 + 257 * bytesCode t = (b.val + 1) + 257 * bytesCode t := by ring
      rw [this, Nat.add_mul_mod_self_left]
      omega
    have hdiv : bytesCode (b :: t) / 257 = bytesCode t := by
      simp only [bytesCode]
      have : b.val + 1 + 257 * bytesCode t = (b.val + 1) + 257 * bytesCode t := by ring
      rw [this, Nat.add_mul_div_left _ _ (by norm_num : 0 < (257 : Nat))]
      omega
    have key : decodeBytesN (bytesCode (b :: t) / 257) = some t := by rw [hdiv]; exact ih
    rw [decodeBytesN, dif_neg hne, dif_pos (by rw [hmod]; omega), key]
    simp [Fin.ext_iff, hmod]

theorem bytesCode_injective : Function.Injective bytesCode := by
  intro a b h
  have h2 := congrArg decodeBytesN h
  rw [decodeBytesN_bytesCode, decodeBytesN_bytesCode] at h2
  exact Option.some.inj h2

theorem bytesCode_cons_ne_zero (b : Byte) (t : ByteStr) : bytesCode (b :: t) ≠ 0 := by
  simp only [bytesCode]
  omega

theorem natCast_mod_grpOrder (a : Nat) :
    ((a % grpOrder : Nat) : ZMod grpOrder) = (a : ZMod grpOrder) := by
  have h : a % grpOrder + grpOrder * (a / grpOrder) = a := Nat.mod_add_div a grpOrder
  calc ((a % grpOrder : Nat) : ZMod grpOrder)
      = ((a % grpOrder : Nat) : ZMod grpOrder)
          + ((grpOrder : Nat) : ZMod grpOrder) * ((a / grpOrder : Nat) : ZMod grpOrder) := by
        rw [ZMod.natCast_self]
        ring
    _ = (((a % grpOrder + grpOrder * (a / grpOrder)) : Nat) : ZMod grpOrder) := by
        push_cast
        ring
    _ = (a : ZMod grpOrder) := by rw [h]

theorem natCast_val_grpOrder (x : ZMod grpOrder) : ((x.val : Nat) : ZMod grpOrder) = x := by
  rw [ZMod.natCast_val, ZMod.cast_id]

theorem transcript_inj_hash {h1 h2 C A : ByteStr}
    (he : transcript h1 C A = transcript h2 C A) : h1 = h2 := by
  unfold transcript at he
  have e1 := List.append_cancel_right he
  have e2 := List.append_cancel_right e1
  exact List.append_cancel_left e2

theorem transcript_inj_commit {h C1 C2 A : ByteStr}
    (he : transcript h C1 A = transcript h C2 A) : C1 = C2 := by
  unfold transcript at he
  exact List.append_cancel_left (List.append_cancel_right he)

theorem challengeNat_inj_hash {h1 h2 C A : ByteStr}
    (he : challengeNat h1 C A = challengeNat h2 C A) : h1 = h2 :=
  transcript_inj_hash (bytesCode_injective he)

theorem challengeNat_inj_commit {h C1 C2 A : ByteStr}
    (he : challengeNat h C1 A = challengeNat h C2 A) : C1 = C2 :=
  transcript_inj_commit (bytesCode_injective he)

theorem challengeNat_ne_zero (h C A : ByteStr) : challengeNat h C A ≠ 0 := by
  unfold challengeNat transcript domainTag
  simp only [List.cons_append]
  exact bytesCode_cons_ne_zero _ _

theorem xor_ne_of_ne_zero {a m : Nat} (hm : m ≠ 0) : a ^^^ m ≠ a := by
  intro h
  have h2 : a ^^^ (a ^^^ m) = a ^^^ a := congrArg (a ^^^ ·) h
  rw [← Nat.xor_assoc, Nat.xor_self, Nat.zero_xor] at h2
  exact hm h2

theorem flipByte_ne (b : Byte) {j : Nat} (hj : j < 8) : flipByte b j ≠ b := by
  unfold flipByte
  rw [dif_pos hj]
  intro h
  have hv : b.val ^^^ (1 <<< j) = b.val := congrArg Fin.val h
  exact xor_ne_of_ne_zero (by rw [Nat.one_shiftLeft]; exact (Nat.two_pow_pos j).ne') hv

theorem flipBit_ne (bs : ByteStr) {i j : Nat} (hi : i < bs.length) (hj : j < 8) :
    flipBit bs i j ≠ bs := by
  induction bs generalizing i with
  | nil => simp at hi
  | cons b t ih =>
    cases i with
    | zero =>
      simp only [flipBit, ne_eq, List.cons.injEq, not_and]
      intro h
      exact absurd h (flipByte_ne b hj)
    | succ i =>
      simp only [flipBit, ne_eq, List.cons.injEq, not_and]
      intro _
      exact ih (by simpa using hi)

theorem length_flipBit (bs : ByteStr) (i j : Nat) : (flipBit bs i j).length = bs.length := by
  induction bs generalizing i with
  | nil => simp [flipBit]
  | cons b t ih =>
    cases i with
    | zero => simp [flipBit]
    | succ i => simp [flipBit, ih]

theorem dropLast_ne {bs : ByteStr} (h : bs ≠ []) : bs.dropLast ≠ bs := by
  intro he
  have h1 : 0 < bs.length := List.length_pos.mpr h
  have h2 := congrArg List.length he
  rw [List.length_dropLast] at h2
  omega

theorem flip_mod_ne_val : ∀ z : Fin 251, ∀ j : Fin 8,
    (z.val ^^^ (1 <<< j.val)) % 251 ≠ z.val := by decide

theorem gp_cancel {u v : ZMod grpOrder} (h : u * Gp = v * Gp) : u = v := by
  have h1 : Gp * (126 : ZMod grpOrder) = 1 := by decide
  calc u = u * (Gp * 126) := by rw [h1, mul_one]
    _ = u * Gp * 126 := by ring
    _ = v * Gp * 126 := by rw [h]
    _ = v * (Gp * 126) := by ring
    _ = v := by rw [h1, mul_one]

theorem hp_cancel {u v : ZMod grpOrder} (h : u * Hp = v * Hp) : u = v := by
  have h1 : Hp * (84 : ZMod grpOrder) = 1 := by decide
  calc u = u * (Hp * 84) := by rw [h1, mul_one]
    _ = u * Hp * 84 := by ring
    _ = v * Hp * 84 := by rw [h]
    _ = v * (Hp * 84) := by ring
    _ = v := by rw [h1, mul_one]

theorem proofChallenge_eq (c : ProofContext) (r : RandTape) :
    challengeNat (sha256B c.to_bytes) (pointBytes (proofCommitPt c r)) (pointBytes (proofAPt r))
      = proofChallenge c r := rfl

theorem verify_eq_true_iff (b : PedersenBackend) (p : ZKProof) :
    b.verify_proof p = true ↔ PedAccepts p := by
  unfold PedersenBackend.verify_proof PedAccepts
  cases hc : p.public_inputs.ctx_hash with
  | none => simp
  | some h =>
    cases ha : p.public_inputs.A with
    | none => simp
    | some aB => simp [Bool.and_eq_true, decide_eq_true_eq, and_assoc]

theorem built_alg_eq (c : ProofContext) (r : RandTape) :
    (((r.kv + proofChallenge c r * deriveValue c.peer_id) % grpOrder : Nat) : ZMod grpOrder) * Gp
      + (((r.kb + proofChallenge c r * r.blinding) % grpOrder : Nat) : ZMod grpOrder) * Hp
    = proofAPt r + ((proofChallenge c r : Nat) : ZMod grpOrder) * proofCommitPt c r := by
  rw [natCast_mod_grpOrder, natCast_mod_grpOrder]
  unfold proofAPt proofCommitPt pedCommitPt
  push_cast
  ring

theorem pedAccepts_buildProof (c : ProofContext) (r : RandTape) :
    PedAccepts (buildProof c r) := by
  unfold PedAccepts buildProof
  refine ⟨rfl, rfl, rfl, rfl, rfl, ?_⟩
  show (((r.kv + proofChallenge c r * deriveValue c.peer_id) % grpOrder : Nat) : ZMod grpOrder) * Gp
      + (((r.kb + proofChallenge c r * r.blinding) % grpOrder : Nat) : ZMod grpOrder) * Hp
    = (((proofAPt r).val : Nat) : ZMod grpOrder)
      + ((proofChallenge c r : Nat) : ZMod grpOrder)
        * (((proofCommitPt c r).val : Nat) : ZMod grpOrder)
  rw [natCast_val_grpOrder, natCast_val_grpOrder]
  exact built_alg_eq c r

theorem verify_buildProof (b : PedersenBackend) (c : ProofContext) (r : RandTape) :
    b.verify_proof (buildProof c r) = true :=
  (verify_eq_true_iff b (buildProof c r)).mpr (pedAccepts_buildProof c r)

theorem verify_false_replaced_ctxhash (b : PedersenBackend) (c : ProofContext) (r : RandTape)
    (h2 : ByteStr) (hne : h2 ≠ sha256B c.to_bytes) :
    b.verify_proof { buildProof c r with
      public_inputs := { (buildProof c r).public_inputs with ctx_hash := some h2 } } = false := by
  rw [Bool.eq_false_iff]
  intro hT
  have hacc := (verify_eq_true_iff b _).mp hT
  simp only [buildProof, PedAccepts] at hacc
  obtain ⟨-, -, -, -, hch, -⟩ := hacc
  rw [← proofChallenge_eq c r] at hch
  have h3 := challengeNat_inj_hash (natToBytes_injective hch)
  exact hne h3.symm

theorem bVal_cons_zero (b : Byte) (t : ByteStr) : bVal (b :: t) 0 = b.val := rfl

theorem bVal_cons_one (b b2 : Byte) (t : ByteStr) : bVal (b :: b2 :: t) 1 = b2.val := rfl

theorem bVal_pointBytes (x : ZMod grpOrder) : bVal (pointBytes x) 0 = x.val := rfl

theorem scalarByte_val (n : Nat) : (scalarByte n).val = n % grpOrder := rfl

theorem verify_false_flip_commitment (b : PedersenBackend) (c : ProofContext) (r : RandTape)
    {i j : Nat} (hi : i < (buildProof c r).commitment.length) (hj : j < 8) :
    b.verify_proof { buildProof c r with
      commitment := flipBit (buildProof c r).commitment i j } = false := by
  rw [Bool.eq_false_iff]
  intro hT
  have hacc := (verify_eq_true_iff b _).mp hT
  simp only [buildProof, PedAccepts] at hacc
  obtain ⟨-, -, -, -, hch, -⟩ := hacc
  rw [← proofChallenge_eq c r] at hch
  have h3 := challengeNat_inj_commit (natToBytes_injective hch)
  exact flipBit_ne _ hi hj h3.symm

theorem verify_false_trunc_commitment (b : PedersenBackend) (c : ProofContext) (r : RandTape) :
    b.verify_proof { buildProof c r with
      commitment := (buildProof c r).commitment.dropLast } = false := by
  rw [Bool.eq_false_iff]
  intro hT
  have hacc := (verify_eq_true_iff b _).mp hT
  simp only [buildProof, PedAccepts] at hacc
  obtain ⟨-, hlen, -⟩ := hacc
  simp [pointBytes] at hlen

theorem verify_false_flip_challenge (b : PedersenBackend) (c : ProofContext) (r : RandTape)
    {i j : Nat} (hi : i < (buildProof c r).challenge.length) (hj : j < 8) :
    b.verify_proof { buildProof c r with
      challenge := flipBit (buildProof c r).challenge i j } = false := by
  rw [Bool.eq_false_iff]
  intro hT
  have hacc := (verify_eq_true_iff b _).mp hT
  simp only [buildProof, PedAccepts] at hacc
  obtain ⟨-, -, -, -, hch, -⟩ := hacc
  rw [proofChallenge_eq c r] at hch
  exact flipBit_ne _ hi hj hch

theorem verify_false_trunc_challenge (b : PedersenBackend) (c : ProofContext) (r : RandTape) :
    b.verify_proof { buildProof c r with
      challenge := (buildProof c r).challenge.dropLast } = false := by
  rw [Bool.eq_false_iff]
  intro hT
  have hacc := (verify_eq_true_iff b _).mp hT
  simp only [buildProof, PedAccepts] at hacc
  obtain ⟨-, -, -, -, hch, -⟩ := hacc
  rw [proofChallenge_eq c r] at hch
  exact dropLast_ne (natToBytes_ne_nil (challengeNat_ne_zero _ _ _)) hch

theorem verify_false_trunc_response (b : PedersenBackend) (c : ProofContext) (r : RandTape) :
    b.verify_proof { buildProof c r with
      response := (buildProof c r).response.dropLast } = false := by
  rw [Bool.eq_false_iff]
  intro hT
  have hacc := (verify_eq_true_iff b _).mp hT
  simp only [buildProof, PedAccepts] at hacc
  obtain ⟨-, -, -, hlen, -⟩ := hacc
  simp [List.dropLast] at hlen

theorem verify_false_flip_response (b : PedersenBackend) (c : ProofContext) (r : RandTape)
    {i j : Nat} (hi : i < 2) (hj : j < 8) :
    b.verify_proof { buildProof c r with
      response := flipBit (buildProof c r).response i j } = false := by
  rw [Bool.eq_false_iff]
  intro hT
  have hacc := (verify_eq_true_iff b _).mp hT
  simp only [buildProof, PedAccepts] at hacc
  obtain ⟨-, -, -, -, -, halg⟩ := hacc
  rw [proofChallenge_eq c r] at halg
  set zv := r.kv + proofChallenge c r * deriveValue c.peer_id with hzv
  set zb := r.kb + proofChallenge c r * r.blinding with hzb
  have hb := built_alg_eq c r
  rw [← hzv, ← hzb] at hb
  interval_cases i
  · simp only [flipBit, flipByte, dif_pos hj, bVal_cons_zero, bVal_cons_one, bVal_pointBytes,
      scalarByte_val, natCast_val_grpOrder] at halg
    have heq := halg.trans hb.symm
    have h7 := add_right_cancel heq
    have h8 := gp_cancel h7
    have h9 : (zv % 251 ^^^ 1 <<< j) % 251 = (zv % 251) % 251 :=
      (ZMod.natCast_eq_natCast_iff _ _ _).mp h8
    have h10 : (zv % 251 ^^^ 1 <<< j) % 251 = zv % 251 := by omega
    exact flip_mod_ne_val ⟨zv % 251, Nat.mod_lt zv (by norm_num)⟩ ⟨j, hj⟩ h10
  · simp only [flipBit, flipByte, dif_pos hj, bVal_cons_zero, bVal_cons_one, bVal_pointBytes,
      scalarByte_val, natCast_val_grpOrder] at halg
    have heq := halg.trans hb.symm
    have h7 := add_left_cancel heq
    have h8 := hp_cancel h7
    have h9 : (zb % 251 ^^^ 1 <<< j) % 251 = (zb % 251) % 251 :=
      (ZMod.natCast_eq_natCast_iff _ _ _).mp h8
    have h10 : (zb % 251 ^^^ 1 <<< j) % 251 = zb % 251 := by omega
    exact flip_mod_ne_val ⟨zb % 251, Nat.mod_lt zb (by norm_num)⟩ ⟨j, hj⟩ h10


theorem validateCtx_ok {c c2 : ProofContext} (h : validateCtx (CtxArg.ctx c) = Except.ok c2) :
    c2 = c := by
  simp only [validateCtx] at h
  cases hs : c.session_id with
  | none => rw [hs] at h; simp at h
  | some s =>
    rw [hs] at h
    by_cases h1 : c.peer_id = []
    · simp [h1] at h
    · by_cases h2 : s = []
      · simp [h1, h2] at h
      · simp [h1, h2] at h
        exact h.symm

theorem generate_ok_eq (b : PedersenBackend) {c : ProofContext} {r : RandTape} {p : ZKProof}
    (h : b.generate_commitment_opening_proof (CtxArg.ctx c) r = Except.ok p) :
    p = buildProof c r := by
  unfold PedersenBackend.generate_commitment_opening_proof at h
  cases hv : validateCtx (CtxArg.ctx c) with
  | error e => rw [hv] at h; simp at h
  | ok c3 =>
    rw [hv] at h
    simp at h
    rw [← h, validateCtx_ok hv]

theorem encodeOptB_injective : Function.Injective encodeOptB := by
  intro a b h
  cases a with
  | none =>
    cases b with
    | none => rfl
    | some bs => simp [encodeOptB] at h
  | some as2 =>
    cases b with
    | none => simp [encodeOptB] at h
    | some bs =>
      simp only [encodeOptB] at h
      have h2 : bytesCode as2 = bytesCode bs := by omega
      rw [bytesCode_injective h2]

theorem to_bytes_ne_of_session_ne {c1 c2 : ProofContext}
    (h1 : c1.peer_id = c2.peer_id) (h2 : c1.metadata = c2.metadata)
    (h3 : c1.timestamp = c2.timestamp) (h4 : c1.session_id ≠ c2.session_id) :
    c1.to_bytes ≠ c2.to_bytes := by
  intro he
  unfold ProofContext.to_bytes at he
  have e1 := natToBytes_injective he
  rw [Nat.pair_eq_pair] at e1
  obtain ⟨-, e2⟩ := e1
  rw [Nat.pair_eq_pair] at e2
  obtain ⟨e3, -⟩ := e2
  exact h4 (encodeOptB_injective e3)

/-- C1: for every valid ProofContext (non-empty peer identifier, session
identifier present as a non-empty string) and every randomness tape,
generate_commitment_opening_proof succeeds with the built proof, and that
proof is accepted by verify_proof on any PedersenBackend instance -
including a fresh instance different from the generating one (backend
instances carry no state, so verification is instance-independent). -/
theorem C1_generate_then_verify (b b2 : PedersenBackend) (c : ProofContext) (r : RandTape)
    (s : ByteStr) (hp : c.peer_id ≠ []) (hs : c.session_id = some s) (hs2 : s ≠ []) :
    b.generate_commitment_opening_proof (CtxArg.ctx c) r = Except.ok (buildProof c r)
      ∧ b2.verify_proof (buildProof c r) = true := by
  constructor
  · simp only [PedersenBackend.generate_commitment_opening_proof, validateCtx]
    rw [hs]
    simp [hp, hs2]
  · exact verify_buildProof b2 c r

theorem C1_generate_then_verify_witness :
    wB.generate_commitment_opening_proof (CtxArg.ctx wCtx) wR = Except.ok (buildProof wCtx wR)
      ∧ wB2.verify_proof (buildProof wCtx wR) = true :=
  C1_generate_then_verify wB wB2 wCtx wR [115, 49] (by decide) rfl (by decide)

/-- C2: session binding - a proof generated under a context whose session
identifier is "session_001" is rejected by verify_proof after its
context-hash public input is replaced by the hash of the otherwise
identical context with session identifier "session_other"; and any two
contexts that differ only in session identifier have different canonical
byte encodings. -/
theorem C2_session_binding (b : PedersenBackend) (peer : ByteStr)
    (md : List (ByteStr × Nat)) (ts : Nat) (r : RandTape) (hp : peer ≠ []) :
    (b.verify_proof
        { buildProof ⟨peer, some (asciiBytes "session_001"), md, ts⟩ r with
          public_inputs :=
            { (buildProof ⟨peer, some (asciiBytes "session_001"), md, ts⟩ r).public_inputs with
              ctx_hash := some (sha256B
                (ProofContext.to_bytes ⟨peer, some (asciiBytes "session_other"), md, ts⟩)) } }
      = false)
    ∧ ∀ c1 c2 : ProofContext, c1.peer_id = c2.peer_id → c1.metadata = c2.metadata →
        c1.timestamp = c2.timestamp → c1.session_id ≠ c2.session_id →
        c1.to_bytes ≠ c2.to_bytes := by
  constructor
  · apply verify_false_replaced_ctxhash
    show sha256B (ProofContext.to_bytes ⟨peer, some (asciiBytes "session_other"), md, ts⟩)
      ≠ sha256B (ProofContext.to_bytes ⟨peer, some (asciiBytes "session_001"), md, ts⟩)
    exact to_bytes_ne_of_session_ne rfl rfl rfl
      (show (some (asciiBytes "session_other") : Option ByteStr) ≠ some (asciiBytes "session_001")
        from by decide)
  · intro c1 c2 h1 h2 h3 h4
    exact to_bytes_ne_of_session_ne h1 h2 h3 h4

theorem C2_session_binding_witness :
    (wB.verify_proof
        { buildProof ⟨wPeer, some (asciiBytes "session_001"), [], 7⟩ wR with
          public_inputs :=
            { (buildProof ⟨wPeer, some (asciiBytes "session_001"), [], 7⟩ wR).public_inputs with
              ctx_hash := some (sha256B
                (ProofContext.to_bytes ⟨wPeer, some (asciiBytes "session_other"), [], 7⟩)) } }
      = false)
    ∧ ∀ c1 c2 : ProofContext, c1.peer_id = c2.peer_id → c1.metadata = c2.metadata →
        c1.timestamp = c2.timestamp → c1.session_id ≠ c2.session_id →
        c1.to_bytes ≠ c2.to_bytes :=
  C2_session_binding wB wPeer [] 7 wR (by decide)

/-- C3: tamper rejection - for every proof returned by
generate_commitment_opening_proof, flipping any single bit of the
commitment, challenge or response field yields a proof rejected by
verify_proof, and truncating any of those three fields by one byte also
yields a proof rejected by verify_proof. -/
theorem C3_bitflip_truncation_reject (b : PedersenBackend) (c : ProofContext) (r : RandTape)
    (p : ZKProof) (hgen : b.generate_commitment_opening_proof (CtxArg.ctx c) r = Except.ok p) :
    (∀ i j, i < p.commitment.length → j < 8 →
      b.verify_proof { p with commitment := flipBit p.commitment i j } = false)
    ∧ (∀ i j, i < p.challenge.length → j < 8 →
      b.verify_proof { p with challenge := flipBit p.challenge i j } = false)
    ∧ (∀ i j, i < p.response.length → j < 8 →
      b.verify_proof { p with response := flipBit p.response i j } = false)
    ∧ b.verify_proof { p with commitment := p.commitment.dropLast } = false
    ∧ b.verify_proof { p with challenge := p.challenge.dropLast } = false
    ∧ b.verify_proof { p with response := p.response.dropLast } = false := by
  obtain rfl := generate_ok_eq b hgen
  refine ⟨?_, ?_, ?_, verify_false_trunc_commitment b c r,
    verify_false_trunc_challenge b c r, verify_false_trunc_response b c r⟩
  · intro i j hi hj
    exact verify_false_flip_commitment b c r hi hj
  · intro i j hi hj
    exact verify_false_flip_challenge b c r hi hj
  · intro i j hi hj
    exact verify_false_flip_response b c r hi hj

theorem C3_bitflip_truncation_reject_witness :
    (∀ i j, i < (buildProof wCtx wR).commitment.length → j < 8 →
      wB.verify_proof { buildProof wCtx wR with
        commitment := flipBit (buildProof wCtx wR).commitment i j } = false)
    ∧ (∀ i j, i < (buildProof wCtx wR).challenge.length → j < 8 →
      wB.verify_proof { buildProof wCtx wR with
        challenge := flipBit (buildProof wCtx wR).challenge i j } = false)
    ∧ (∀ i j, i < (buildProof wCtx wR).response.length → j < 8 →
      wB.verify_proof { buildProof wCtx wR with
        response := flipBit (buildProof wCtx wR).response i j } = false)
    ∧ wB.verify_proof { buildProof wCtx wR with
        commitment := (buildProof wCtx wR).commitment.dropLast } = false
    ∧ wB.verify_proof { buildProof wCtx wR with
        challenge := (buildProof wCtx wR).challenge.dropLast } = false
    ∧ wB.verify_proof { buildProof wCtx wR with
        response := (buildProof wCtx wR).response.dropLast } = false :=
  C3_bitflip_truncation_reject wB wCtx wR (buildProof wCtx wR) rfl

/-- C4: verify_proof is a total Boolean function on already-constructed
proofs (the model has no exception path), returning true exactly when every
structural check and the algebraic checks of the acceptance predicate hold,
and false exactly when some check fails - format and size violations are
folded into the false result. -/
theorem C4_verify_total_characterization (b : PedersenBackend) :
    ∀ p : ZKProof, (b.verify_proof p = true ↔ PedAccepts p)
      ∧ (b.verify_proof p = false ↔ ¬ PedAccepts p) := by
  intro p
  constructor
  · exact verify_eq_true_iff b p
  · rw [Bool.eq_false_iff]
    exact not_congr (verify_eq_true_iff b p)

/-- C5: construction-time input validation of
generate_commitment_opening_proof - a type violation when the argument is
not a ProofContext or when the session identifier is missing, a value
violation when the peer identifier or the session identifier is empty;
each violation is raised for every randomness tape r with a result that
does not depend on r, so it precedes all cryptographic work. -/
theorem C5_input_validation (b : PedersenBackend) (c : ProofContext) (r : RandTape)
    (s : ByteStr) :
    (b.generate_commitment_opening_proof CtxArg.notCtx r
      = Except.error (PyError.typeError (asciiBytes "ctx must be ProofContext")))
    ∧ (c.session_id = none →
      b.generate_commitment_opening_proof (CtxArg.ctx c) r
        = Except.error (PyError.typeError (asciiBytes "session_id must be str")))
    ∧ (c.peer_id = [] → c.session_id = some s →
      b.generate_commitment_opening_proof (CtxArg.ctx c) r
        = Except.error (PyError.valueError (asciiBytes "peer_id cannot be empty")))
    ∧ (c.peer_id ≠ [] → c.session_id = some [] →
      b.generate_commitment_opening_proof (CtxArg.ctx c) r
        = Except.error (PyError.valueError (asciiBytes "session_id cannot be empty"))) := by
  refine ⟨rfl, ?_, ?_, ?_⟩
  · intro hs
    simp only [PedersenBackend.generate_commitment_opening_proof, validateCtx]
    rw [hs]
  · intro hpe hs
    simp only [PedersenBackend.generate_commitment_opening_proof, validateCtx]
    rw [hs]
    simp [hpe]
  · intro hpe hs
    simp only [PedersenBackend.generate_commitment_opening_proof, validateCtx]
    rw [hs]
    simp [hpe]

theorem C5_input_validation_witness :
    (wB.generate_commitment_opening_proof CtxArg.notCtx wR
      = Except.error (PyError.typeError (asciiBytes "ctx must be ProofContext")))
    ∧ (wB.generate_commitment_opening_proof (CtxArg.ctx ⟨[], some [115], [], 0⟩) wR
      = Except.error (PyError.valueError (asciiBytes "peer_id cannot be empty")))
    ∧ (wB.generate_commitment_opening_proof (CtxArg.ctx ⟨wPeer, none, [], 0⟩) wR
      = Except.error (PyError.typeError (asciiBytes "session_id must be str")))
    ∧ (wB.generate_commitment_opening_proof (CtxArg.ctx ⟨wPeer, some [], [], 0⟩) wR
      = Except.error (PyError.valueError (asciiBytes "session_id cannot be empty"))) :=
  ⟨(C5_input_validation wB ⟨[], some [115], [], 0⟩ wR [115]).1,
   (C5_input_validation wB ⟨[], some [115], [], 0⟩ wR [115]).2.2.1 rfl rfl,
   (C5_input_validation wB ⟨wPeer, none, [], 0⟩ wR [115]).2.1 rfl,
   (C5_input_validation wB ⟨wPeer, some [], [], 0⟩ wR []).2.2.2 (by decide) rfl⟩

/-- C6: batch_verify is true exactly when every element of the list
verifies individually; in particular it is true on the empty list, true on
the singleton of a generated proof, and false on a generated proof paired
with a challenge-tampered copy of it. -/
theorem C6_batch_verify (b : PedersenBackend) (c : ProofContext) (r : RandTape) (p : ZKProof)
    (hgen : b.generate_commitment_opening_proof (CtxArg.ctx c) r = Except.ok p) :
    (∀ ps : List ZKProof, b.batch_verify ps = true ↔ ∀ q ∈ ps, b.verify_proof q = true)
    ∧ b.batch_verify [] = true
    ∧ b.batch_verify [p] = true
    ∧ b.batch_verify [p, { p with challenge := flipBit p.challenge 0 0 }] = false := by
  obtain rfl := generate_ok_eq b hgen
  have hlen : 0 < (buildProof c r).challenge.length :=
    List.length_pos.mpr (natToBytes_ne_nil (challengeNat_ne_zero _ _ _))
  have hflip := @verify_false_flip_challenge b c r 0 0 hlen (by norm_num)
  refine ⟨?_, rfl, ?_, ?_⟩
  · intro ps
    exact List.all_eq_true
  · simp [PedersenBackend.batch_verify, List.all, verify_buildProof]
  · simp [PedersenBackend.batch_verify, List.all, hflip]

theorem C6_batch_verify_witness :
    (∀ ps : List ZKProof, wB.batch_verify ps = true ↔ ∀ q ∈ ps, wB.verify_proof q = true)
    ∧ wB.batch_verify [] = true
    ∧ wB.batch_verify [buildProof wCtx wR] = true
    ∧ wB.batch_verify [buildProof wCtx wR,
        { buildProof wCtx wR with
          challenge := flipBit (buildProof wCtx wR).challenge 0 0 }] = false :=
  C6_batch_verify wB wCtx wR (buildProof wCtx wR) rfl

/-- C7: proofs are not cross-verifiable between the Pedersen backend and
the mock-adapter backend - each backend accepts its own proof and rejects
the proof of the other backend, although both proofs carry the identical
proof-family tag. -/
theorem C7_no_cross_backend_verification (bp : PedersenBackend)
    (bm : MockZKProofSystemAdapter) (c : ProofContext) (r : RandTape) (n : Nat) (p : ZKProof)
    (hgen : bp.generate_commitment_opening_proof (CtxArg.ctx c) r = Except.ok p) :
    p.proof_type = anonTag
    ∧ (bm.generate_anonymity_set_proof c n).proof_type = anonTag
    ∧ bp.verify_proof p = true
    ∧ bm.verify_proof (bm.generate_anonymity_set_proof c n) = true
    ∧ bp.verify_proof (bm.generate_anonymity_set_proof c n) = false
    ∧ bm.verify_proof p = false := by
  obtain rfl := generate_ok_eq bp hgen
  refine ⟨rfl, rfl, verify_buildProof bp c r, ?_, ?_, ?_⟩
  · simp [MockZKProofSystemAdapter.verify_proof,
      MockZKProofSystemAdapter.generate_anonymity_set_proof]
  · rfl
  · simp [MockZKProofSystemAdapter.verify_proof, buildProof]

theorem C7_no_cross_backend_verification_witness :
    (buildProof wCtx wR).proof_type = anonTag
    ∧ (MockZKProofSystemAdapter.mk.generate_anonymity_set_proof wCtx 4).proof_type = anonTag
    ∧ wB.verify_proof (buildProof wCtx wR) = true
    ∧ MockZKProofSystemAdapter.mk.verify_proof
        (MockZKProofSystemAdapter.mk.generate_anonymity_set_proof wCtx 4) = true
    ∧ wB.verify_proof (MockZKProofSystemAdapter.mk.generate_anonymity_set_proof wCtx 4) = false
    ∧ MockZKProofSystemAdapter.mk.verify_proof (buildProof wCtx wR) = false :=
  C7_no_cross_backend_verification wB MockZKProofSystemAdapter.mk wCtx wR 4
    (buildProof wCtx wR) rfl

theorem decodeOptN_encodeOptN (o : Option Nat) : decodeOptN (encodeOptN o) = o := by
  cases o with
  | none => rfl
  | some n => rfl

theorem decodeOptBool_encodeOptBool (o : Option Bool) : decodeOptBool (encodeOptBool o) = some o := by
  cases o with
  | none => rfl
  | some bv => cases bv <;> rfl

theorem decodeOptB_encodeOptB (o : Option ByteStr) : decodeOptB (encodeOptB o) = some o := by
  cases o with
  | none => rfl
  | some bs => simp [encodeOptB, decodeOptB, decodeBytesN_bytesCode]

theorem decPub_encPub (pi : PublicInputs) : decPub (encPub pi) = some pi := by
  unfold decPub encPub
  simp [Nat.unpair_pair, decodeOptB_encodeOptB, decodeOptBool_encodeOptBool,
    decodeOptN_encodeOptN]

theorem deserialize_serialize (p : ZKProof) : ZKProof.deserialize p.serialize = some p := by
  unfold ZKProof.serialize ZKProof.deserialize
  rw [bytesToNat_natToBytes]
  unfold decProof encProof
  simp [Nat.unpair_pair, decodeBytesN_bytesCode, decPub_encPub]

/-- C8: serialization of a ZKProof is a lossless round trip - deserialize
after serialize restores the whole record (every field: proof type,
commitment, challenge, response, public inputs, timestamp) unchanged, and a
generated proof restored this way still verifies true under the same
backend. -/
theorem C8_serialize_roundtrip (b : PedersenBackend) (c : ProofContext) (r : RandTape)
    (p0 : ZKProof) (hgen : b.generate_commitment_opening_proof (CtxArg.ctx c) r = Except.ok p0) :
    (∀ p : ZKProof, ZKProof.deserialize p.serialize = some p)
    ∧ ZKProof.deserialize p0.serialize = some p0
    ∧ ∀ p2 : ZKProof, ZKProof.deserialize p0.serialize = some p2 →
        b.verify_proof p2 = true := by
  obtain rfl := generate_ok_eq b hgen
  refine ⟨deserialize_serialize, deserialize_serialize _, ?_⟩
  intro p2 h2
  rw [deserialize_serialize] at h2
  rw [← Option.some.inj h2]
  exact verify_buildProof b c r

theorem C8_serialize_roundtrip_witness :
    (∀ p : ZKProof, ZKProof.deserialize p.serialize = some p)
    ∧ ZKProof.deserialize (buildProof wCtx wR).serialize = some (buildProof wCtx wR)
    ∧ ∀ p2 : ZKProof, ZKProof.deserialize (buildProof wCtx wR).serialize = some p2 →
        wB.verify_proof p2 = true :=
  C8_serialize_roundtrip wB wCtx wR (buildProof wCtx wR) rfl

/-- C9: the value-derivation map is deterministic across calls and across
backend instances (it is a pure function of the identifier alone), and
injective: distinct identifiers derive distinct scalars (the spec contract
of effectively-injective derivation, exact under the idealized hash of the
model). -/
theorem C9_derive_value_deterministic_injective (b1 b2 : PedersenBackend)
    (id1 id2 : ByteStr) (hne : id1 ≠ id2) :
    b1.derive_commitment_value id1 = b2.derive_commitment_value id1
    ∧ b1.derive_commitment_value id1 ≠ b1.derive_commitment_value id2 := by
  refine ⟨rfl, ?_⟩
  intro h
  exact hne (bytesCode_injective h)

theorem C9_derive_value_deterministic_injective_witness :
    wB.derive_commitment_value [112, 101, 101, 114, 95, 120]
      = wB2.derive_commitment_value [112, 101, 101, 114, 95, 120]
    ∧ wB.derive_commitment_value [112, 101, 101, 114, 95, 120]
      ≠ wB.derive_commitment_value [112, 101, 101, 114, 95, 121] :=
  C9_derive_value_deterministic_injective wB wB2 _ _ (by decide)

/-- C10: MockZKProofSystem.verify_proof returns false exactly when the
verification key of the proof differs from the stored key for its proof
type, and otherwise returns the stored is_valid flag of the proof - no
further check is performed; consequently every proof built by the
generators of the system verifies true, except a proof of
generate_unlinkability_proof with are_unlinkable set to false, whose
verification returns that flag. -/
theorem C10_mock_verify_characterization (s : MockZKProofSystem) :
    (∀ p : MockZKProof, s.verify_proof p
      = (decide (p.mock_verification_key = s.verification_keys p.proof_type) && p.is_valid))
    ∧ (∀ pid n ts, s.verify_proof (s.generate_anonymity_set_proof pid n ts) = true)
    ∧ (∀ s1 s2 bb ts, s.verify_proof (s.generate_unlinkability_proof s1 s2 bb ts) = bb)
    ∧ (∀ vn mn mx ts, s.verify_proof (s.generate_range_proof vn mn mx ts) = true)
    ∧ (∀ e1 e2 ts, s.verify_proof (s.generate_timing_independence_proof e1 e2 ts) = true) := by
  have hchar : ∀ p : MockZKProof, s.verify_proof p
      = (decide (p.mock_verification_key = s.verification_keys p.proof_type) && p.is_valid) := by
    intro p
    unfold MockZKProofSystem.verify_proof MockZKProof.verify
    by_cases h : p.mock_verification_key = s.verification_keys p.proof_type
    · simp [h]
    · simp [h]
  refine ⟨hchar, ?_, ?_, ?_, ?_⟩
  · intro pid n ts
    rw [hchar]
    simp [MockZKProofSystem.generate_anonymity_set_proof, mkMockZKProof,
      MockZKProofSystem.verification_keys]
  · intro s1 s2 bb ts
    rw [hchar]
    simp [MockZKProofSystem.generate_unlinkability_proof, mkMockZKProof,
      MockZKProofSystem.verification_keys]
  · intro vn mn mx ts
    rw [hchar]
    simp [MockZKProofSystem.generate_range_proof, mkMockZKProof,
      MockZKProofSystem.verification_keys]
  · intro e1 e2 ts
    rw [hchar]
    simp [MockZKProofSystem.generate_timing_independence_proof, mkMockZKProof,
      MockZKProofSystem.verification_keys]
